import Mathlib

/-!
Verification of the AnonyNet proxy server.

This file gives a shallow embedding of the pure decision logic of the two
proxy implementations in the repository:

* `new_proxy.py` — the rich-dashboard proxy: the `is_domain_blocked`
  hostname classifier and the request-handling decisions of
  `handle_client` (which responses are sent, which upstream dials occur).
* `Python/model/Core/AnonyNetEnterpriseProxy.py` together with
  `ConnectionPool.py` and `RateLimiter.py` — the enterprise proxy: SNI
  extraction from a TLS ClientHello, the CONNECT-tunnel event sequence,
  the connection pool's acquire/release logic, and the sliding-window
  rate limiter.

Python strings are modelled as `List Char`; byte buffers as `List Nat`
(each element one byte value).  Python functions that internally swallow
exceptions and fall back to a default are modelled with explicit bounds
checks returning that default.  Side-effecting handler code is modelled
as a pure function returning the list of externally visible events (bytes
sent to the client, upstream dials, pool operations) in program order.
-/

namespace AnonyNet

/-! ## Python string primitives (over `List Char`)

Helpers mirroring the exact semantics of the Python `str` methods used by
the source: `split(sep)` (no collapsing of empty fields), `split()`
(whitespace split dropping empty tokens), `strip()`, `lower()`/`upper()`
(ASCII, as in Lean's `Char.toLower`), `startswith`, and `int(...)`.
-/

/-- Python `s.split(sep)` for a one-character separator `sep`:
splits at every occurrence, keeping empty fields
(`"a..b".split(".") == ["a","","b"]`, `"".split(".") == [""]`). -/
def pySplitChar (sep : Char) : List Char → List (List Char)
  | [] => [[]]
  | c :: rest =>
    match pySplitChar sep rest with
    | [] => [[]]
    | h :: t => if c = sep then [] :: h :: t else (c :: h) :: t

/-- Python `sep.join(fields)` for the one-character separator `'.'`
(used by `is_domain_blocked` as `".".join(parts[i:])`). -/
def joinDot : List (List Char) → List Char
  | [] => []
  | [x] => x
  | x :: y :: t => x ++ '.' :: joinDot (y :: t)

/-- Python `str.isspace` for the characters that can occur in the proxy's
byte-decoded requests (space, tab, CR, LF, vertical tab, form feed). -/
def pyIsSpace (c : Char) : Bool :=
  c = ' ' ∨ c = '\t' ∨ c = '\n' ∨ c = '\r' ∨ c = Char.ofNat 11 ∨ c = Char.ofNat 12

/-- Python `s.split()` (no separator): maximal runs of non-whitespace;
leading/trailing/repeated whitespace yields no empty tokens. -/
def pySplitWs (l : List Char) : List (List Char) :=
  (pySplitChar ' ' (l.map (fun c => if pyIsSpace c then ' ' else c))).filter (· ≠ [])

/-- Python `s.strip()`: drop whitespace from both ends. -/
def pyStrip (l : List Char) : List Char :=
  ((l.dropWhile pyIsSpace).reverse.dropWhile pyIsSpace).reverse

/-- Python `s.lower()` (ASCII letters, which is all the source's tables use). -/
def pyLower (l : List Char) : List Char := l.map Char.toLower

/-- Python `s.upper()` (ASCII letters). -/
def pyUpper (l : List Char) : List Char := l.map Char.toUpper

/-- Python `s.split(sep, 1)` for a one-character separator: split at the
first occurrence only; `none` when the separator does not occur
(in Python, `[1]` on the result would then raise `IndexError`). -/
def pySplitOnce (sep : Char) : List Char → Option (List Char × List Char)
  | [] => none
  | c :: rest =>
    if c = sep then some ([], rest)
    else (pySplitOnce sep rest).map (fun p => (c :: p.1, p.2))

/-- Python `int(s)`: optional surrounding whitespace, optional sign, then a
nonempty digit run.  (Digit-group underscores are not modelled; no input
in this development uses them.) -/
def pyToInt (l : List Char) : Option Int :=
  let s := pyStrip l
  let core : Option (List Char × Bool) :=
    match s with
    | '-' :: t => some (t, true)
    | '+' :: t => some (t, false)
    | t => some (t, false)
  match core with
  | some (digits, neg) =>
    if digits ≠ [] ∧ digits.all Char.isDigit then
      let v : Nat := digits.foldl (fun acc c => 10 * acc + (c.toNat - 48)) 0
      some (if neg then -(v : Int) else (v : Int))
    else none
  | none => none

/-! ## Blocklist (`new_proxy.py`, `is_domain_blocked`)

The five category tables are the dictionary constants of
`is_domain_blocked`, keys rendered as `List Char`, values as the reason
strings. -/

/-- Major ad networks and advertising platforms (`ad_networks`). -/
def ad_networks : List (List Char × String) :=
  [("doubleclick.net".data, "Google AdSense/DoubleClick"),
   ("googlesyndication.com".data, "Google AdSense/DoubleClick"),
   ("adservice.google.com".data, "Google AdSense/DoubleClick"),
   ("googleads.g.doubleclick.net".data, "Google AdSense/DoubleClick"),
   ("facebook.com/tr".data, "Facebook Pixel/Tracking (partial URL, proxy should handle)"),
   ("fbcdn.net".data, "Facebook CDN (often related to ads/tracking)"),
   ("amazon-adsystem.com".data, "Amazon Advertising"),
   ("adnxs.com".data, "AppNexus (Xandr) Advertising"),
   ("ad.com".data, "AOL Advertising"),
   ("adsrvr.org".data, "The Trade Desk (Ad Platform)"),
   ("criteo.com".data, "Criteo Retargeting Ads"),
   ("openx.net".data, "OpenX Ad Exchange"),
   ("rubiconproject.com".data, "Magnite (formerly Rubicon Project) Ad Exchange"),
   ("appnexus.com".data, "AppNexus (Xandr) Advertising"),
   ("zedo.com".data, "Zedo Ad Network"),
   ("servedby.flashtalking.com".data, "Flashtalking Ad Serving"),
   ("pixel.facebook.com".data, "Facebook Pixel"),
   ("addthis.com".data, "AddThis Social Sharing/Tracking"),
   ("sharethis.com".data, "ShareThis Social Sharing/Tracking"),
   ("outbrain.com".data, "Outbrain Native Advertising"),
   ("taboola.com".data, "Taboola Native Advertising")]

/-- Analytics and user tracking services (`analytics_trackers`). -/
def analytics_trackers : List (List Char × String) :=
  [("google-analytics.com".data, "Google Analytics"),
   ("googletagmanager.com".data, "Google Tag Manager (often used for analytics/tracking)"),
   ("mixpanel.com".data, "Mixpanel Analytics"),
   ("segment.com".data, "Segment Data Platform"),
   ("hotjar.com".data, "Hotjar User Behavior Analytics"),
   ("scorecardresearch.com".data, "Comscore Digital Measurement"),
   ("telemetry.microsoft.com".data, "Microsoft Telemetry/Data Collection"),
   ("vortex.data.microsoft.com".data, "Microsoft Telemetry/Data Collection"),
   ("log.mixpanel.com".data, "Mixpanel Event Logging"),
   ("piwik.pro".data, "Piwik PRO Analytics Suite"),
   ("amplitude.com".data, "Amplitude Product Analytics"),
   ("heap.io".data, "Heap Analytics")]

/-- Social media trackers (`social_trackers`). -/
def social_trackers : List (List Char × String) :=
  [("platform.twitter.com".data, "Twitter Widgets/Tracking"),
   ("connect.facebook.net".data, "Facebook Connect (Login/Social Plugins)"),
   ("t.co".data, "Twitter URL Shortener/Tracker"),
   ("disqus.com".data, "Disqus Comments (can include tracking)")]

/-- CDN subdomains used for ads/trackers (`cdn_trackers`). -/
def cdn_trackers : List (List Char × String) :=
  [("s0.2mdn.net".data, "DoubleClick CDN (often for ad assets)"),
   ("sentry-cdn.com".data, "Sentry Error Tracking/Telemetry CDN")]

/-- Known malware/malvertising domains (`malicious_domains`). -/
def malicious_domains : List (List Char × String) :=
  [("coin-hive.com".data, "In-browser Cryptominer")]

/-- Python `key in dict` / `dict[key]` on one of the tables. -/
def lookupD (key : List Char) (bl : List (List Char × String)) : Option String :=
  (bl.find? (fun p => p.1 = key)).map Prod.snd

/-- The candidate loop of `check_and_get_reason`: for `i` in
`range(len(parts))`, test `".".join(parts[i:])` against the table and
return the first hit's reason.  Recursing on the tail of `parts` walks
`i = 0, 1, …` in source order. -/
def candScan : List (List Char) → List (List Char × String) → Option String
  | [], _ => none
  | parts@(_ :: t), bl =>
    match lookupD (joinDot parts) bl with
    | some r => some r
    | none => candScan t bl

/-- `is_domain_blocked.check_and_get_reason`: exact-match lookup first,
then the subdomain-candidate loop, else `(False, "Not Blocked")`. -/
def check_and_get_reason (d : List Char) (bl : List (List Char × String)) :
    Bool × String :=
  match lookupD d bl with
  | some r => (true, r)
  | none =>
    match candScan (pySplitChar '.' d) bl with
    | some r => (true, r)
    | none => (false, "Not Blocked")

/-- The five category tables in the order `is_domain_blocked` consults
them, each with the label it prepends to the reason on a hit. -/
def categoryChecks : List (String × List (List Char × String)) :=
  [("Ad Network: ", ad_networks),
   ("Analytics/Tracking: ", analytics_trackers),
   ("Social Media Tracker: ", social_trackers),
   ("CDN-based Tracker: ", cdn_trackers),
   ("Malicious/Cryptominer: ", malicious_domains)]

/-- The five sequential `check_and_get_reason` blocks of
`is_domain_blocked`, written as one scan of `categoryChecks` in source
order: the first table reporting a hit determines the result. -/
def scanCategories (d : List Char) :
    List (String × List (List Char × String)) → Bool × String
  | [] => (false, "Not Blocked")
  | (lbl, tbl) :: rest =>
    match check_and_get_reason d tbl with
    | (true, r) => (true, lbl ++ r)
    | (false, _) => scanCategories d rest

/-- `new_proxy.is_domain_blocked`: lowercases the domain, then consults
the five tables in priority order.  Returns `(blocked, reason)`. -/
def is_domain_blocked (domain : List Char) : Bool × String :=
  scanCategories (pyLower domain) categoryChecks

example : (is_domain_blocked "ads.doubleclick.net".data).1 = true := by decide
example : (is_domain_blocked "DOUBLECLICK.NET".data).1 = true := by decide
example : (is_domain_blocked "example.com".data).1 = false := by decide
example : (is_domain_blocked "doubleclick.net.".data).1 = false := by decide
example : (is_domain_blocked "notdoubleclick.net".data).1 = false := by decide
example : (is_domain_blocked "t.co".data).2 = "Social Media Tracker: Twitter URL Shortener/Tracker" := by decide

/-! ## `new_proxy.handle_client` — externally visible events

`handle_client` is modelled as a pure function from the decoded request
string to the ordered list of externally visible actions it performs:
blocklist consultations, bytes sent to the client, upstream dials, the
raw-request forward, the start of the bidirectional relay, and explicit
client-socket closes.  Paths where Python raises (bad request line,
malformed `host:port`, bad port number) produce `[]`: the exception is
caught by the outer handler, which only logs and decrements the
connection counter. -/

/-- An externally visible action of `handle_client`. -/
inductive PEvent where
  /-- a call to `is_domain_blocked` on this hostname -/
  | blocklistCheck (host : List Char)
  /-- bytes sent to the client socket -/
  | send (s : String)
  /-- `socket.create_connection((host, port))` -/
  | dialUpstream (host : List Char) (port : Int)
  /-- the raw client request forwarded to the upstream -/
  | sendUpstreamRaw
  /-- the two `forward` threads are started -/
  | relayStart
  /-- `client_socket.close()` -/
  | closeClient
  deriving DecidableEq, Repr

/-- The full `403 Forbidden` response bytes of `handle_client`. -/
def forbiddenResponse : String :=
  "HTTP/1.1 403 Forbidden\r\nContent-Type: text/plain\r\nContent-Length: 14\r\n\r\nBlocked Domain"

/-- The local `200 OK` response of `handle_client` for `GET /`. -/
def okResponse : String :=
  "HTTP/1.1 200 OK\r\nContent-Type: text/plain\r\nContent-Length: 2\r\n\r\nOK"

/-- The tunnel-established response of `handle_client`. -/
def establishedResponse : String :=
  "HTTP/1.1 200 Connection Established\r\n\r\n"

/-- The `Host:` header scan of the non-CONNECT branch: the first line
whose lowercasing starts with `host:` yields `line.split(":", 1)[1].strip()`;
`host` stays `''` when no such line exists. -/
def findHostHeader (lines : List (List Char)) : List Char :=
  match lines.find? (fun line => "host:".data.isPrefixOf (pyLower line)) with
  | none => []
  | some line =>
    match pySplitOnce ':' line with
    | some (_, after) => pyStrip after
    | none => []

/-- The blocked-domain gate of `handle_client`.  The source unpacks
`reason, is_blocked = is_domain_blocked(host)` — but `is_domain_blocked`
returns `(blocked_bool, reason_string)`, so `is_blocked` is bound to the
reason string, and `if is_blocked:` tests that string's truthiness
(nonemptiness), not the boolean. -/
def handleClientGate (host : List Char) : Bool :=
  (is_domain_blocked host).2 ≠ ""

/-- `new_proxy.handle_client` on the decoded request string: the ordered
list of externally visible events. -/
def handle_client (request : List Char) : List PEvent :=
  if request = [] then [.closeClient]
  else
    let first_line := (pySplitChar '\n' request).headD []
    if "CONNECT".data.isPrefixOf request then
      match (pySplitWs first_line).get? 1 with
      | none => []
      | some host_port =>
        match pySplitChar ':' host_port with
        | [host, portStr] =>
          match pyToInt portStr with
          | none => []
          | some port =>
            if handleClientGate host then
              [.blocklistCheck host, .send forbiddenResponse, .closeClient]
            else
              [.blocklistCheck host, .dialUpstream host port,
               .send establishedResponse, .relayStart]
        | _ => []
    else
      match pySplitWs first_line with
      | [method, path, _] =>
        let host := findHostHeader (pySplitChar '\n' request)
        if method = "GET".data ∧ pyStrip path = "/".data then
          [.send okResponse]
        else if host = [] then [.closeClient]
        else if handleClientGate host then
          [.blocklistCheck host, .send forbiddenResponse, .closeClient]
        else
          [.blocklistCheck host, .dialUpstream host 80,
           .sendUpstreamRaw, .relayStart]
      | _ => []

example :
    handle_client "CONNECT example.com:443 HTTP/1.1\r\n\r\n".data =
      [.blocklistCheck "example.com".data, .send forbiddenResponse, .closeClient] := by
  decide

example :
    handle_client "GET / HTTP/1.1\r\nHost: example.com\r\n\r\n".data =
      [.send okResponse] := by
  decide

/-! ## Enterprise proxy: SNI extraction
(`AnonyNetEnterpriseProxy._extract_sni` / `_parse_sni_extension`)

Byte buffers are `List Nat` (one byte per element).  Python operations
that would raise inside the method's `try` (a short slice passed to
`struct.unpack`, a non-ASCII byte passed to `.decode('ascii')`) are
modelled as explicit bounds/range checks returning `none`, which is what
the surrounding `except` produces.  The two `while` loops advance the
position by at least 4 (extension walk) and at least 3 (server-name-list
walk) per iteration, so a structural fuel of `endPos + 1` and
`data.length + 1` respectively can never be exhausted before the loop
condition fails; this keeps the definitions kernel-computable. -/

/-- Big-endian `struct.unpack('>H', data[pos:pos+2])`; callers establish
`pos + 2 ≤ data.length`. -/
def u16 (data : List Nat) (pos : Nat) : Nat :=
  256 * data.getD pos 0 + data.getD (pos + 1) 0

/-- Python slice `data[start:start+len]` (clipped, never raising). -/
def pySlice (data : List Nat) (start len : Nat) : List Nat :=
  (data.drop start).take len

/-- Python `bytes.decode('ascii')`: `some` of the characters when every
byte is below 0x80, otherwise `none` (the `UnicodeDecodeError` is caught
by the caller). -/
def decodeAscii (bytes : List Nat) : Option String :=
  if bytes.all (· < 128) then some ⟨bytes.map Char.ofNat⟩ else none

/-- The server-name-list walk of `_parse_sni_extension`: while
`pos + 3 <= len(data)`, read `name_type` and `name_len`; on
`name_type == 0` with the name in bounds, decode and return it, else
advance by `3 + name_len`. -/
def sniNameLoop : Nat → List Nat → Nat → Option String
  | 0, _, _ => none
  | fuel + 1, data, pos =>
    if pos + 3 ≤ data.length then
      let nameType := data.getD pos 0
      let nameLen := u16 data (pos + 1)
      if nameType = 0 ∧ pos + 3 + nameLen ≤ data.length then
        decodeAscii (pySlice data (pos + 3) nameLen)
      else
        sniNameLoop fuel data (pos + 3 + nameLen)
    else none

/-- `AnonyNetEnterpriseProxy._parse_sni_extension`: require two bytes for
the (unused) server-name-list length, then walk the entries from
position 2. -/
def parse_sni_extension (data : List Nat) : Option String :=
  if data.length < 2 then none
  else sniNameLoop (data.length + 1) data 2

/-- The extension walk of `_extract_sni`: while `pos + 4 <= end_pos` and
`pos < len(data)`, read the extension type and length (a short slice
would raise `struct.error`, caught as `none`); extension type 0 is the
SNI extension. -/
def extensionLoop : Nat → List Nat → Nat → Nat → Option String
  | 0, _, _, _ => none
  | fuel + 1, data, endPos, pos =>
    if pos + 4 ≤ endPos ∧ pos < data.length then
      if pos + 4 ≤ data.length then
        let extType := u16 data pos
        let extLen := u16 data (pos + 2)
        if extType = 0 then parse_sni_extension (pySlice data (pos + 4) extLen)
        else extensionLoop fuel data endPos (pos + 4 + extLen)
      else none
    else none

/-- `AnonyNetEnterpriseProxy._extract_sni`: recognise a TLS handshake
record (byte 0 = 0x16) holding a ClientHello (byte 5 = 0x01), skip the
fixed and variable-length fields, then walk the extensions for the SNI.
Every malformed shape yields `none`. -/
def extract_sni (data : List Nat) : Option String :=
  if data.length < 5 ∨ data.getD 0 0 ≠ 0x16 then none
  else if data.length < 9 ∨ data.getD 5 0 ≠ 0x01 then none
  else
    -- pos = 5, skip handshake header (4) and version+random (34)
    let pos := 43
    -- session id
    let pos := if pos < data.length then pos + 1 + data.getD pos 0 else pos
    -- cipher suites
    let pos := if pos + 2 ≤ data.length then pos + 2 + u16 data pos else pos
    -- compression methods
    let pos := if pos < data.length then pos + 1 + data.getD pos 0 else pos
    -- extensions
    if pos + 2 ≤ data.length then
      let extensionsLen := u16 data pos
      extensionLoop (pos + 2 + extensionsLen + 1) data (pos + 2 + extensionsLen) (pos + 2)
    else none

/-- A minimal well-formed ClientHello whose SNI is `x`: record header,
ClientHello header, version + 32-byte random, empty session id, one
cipher suite, one compression method, and a single server_name
extension. -/
def helloX : List Nat :=
  [0x16, 0x03, 0x01, 0, 0,
   0x01, 0, 0, 0,
   3, 3] ++ List.replicate 32 0 ++
  [0,
   0, 2, 0, 0,
   1, 0,
   0, 11,
   0, 0, 0, 7,
   0, 4, 0, 0, 1, 0x78]

example : extract_sni helloX = some "x" := by decide
example : extract_sni [1, 2, 3] = none := by decide
example : extract_sni ("CONNECT x:1 HTTP/1.1\r\n\r\n".data.map Char.toNat) = none := by decide

/-! ## Enterprise proxy: connection pool (`ConnectionPool.py`)

Sockets are names (`Nat`); the pool is a total map from `(host, port)`
keys to the per-key idle list, appended at the tail (Python `append`) and
popped from the tail (Python `pop()`).  Liveness of a popped socket
(`sock.getpeername()` not raising) is an oracle `alive : Nat → Bool`. -/

/-- Pool keys: `(host, port)`. -/
abbrev PoolKey := List Char × Int

/-- The pool's dictionary, as a total map (absent keys map to `[]`,
matching `key in pool and pool[key]` treating absent and empty alike). -/
abbrev PoolMap := PoolKey → List Nat

/-- Pointwise update of the pool map at one key. -/
def poolSet (pool : PoolMap) (k : PoolKey) (v : List Nat) : PoolMap :=
  fun k2 => if k2 = k then v else pool k2

/-- What `get_connection` did: reuse a pooled socket, or dial fresh with
the given connect timeout in seconds. -/
inductive AcqResult where
  | reused (sock : Nat)
  | dialed (timeoutSecs : Nat)
  deriving DecidableEq, Repr

/-- `ConnectionPool.get_connection`: pop the most recently added idle
socket for the key if any; if its liveness probe succeeds, return it;
otherwise fall through (the dead socket stays popped, is not closed, and
no further idle socket is tried) and dial a fresh connection with
`settimeout(30)`.  Result: what was acquired, the pool afterwards, and
the sockets closed during the call (always `[]` — the source closes
nothing here). -/
def get_connection (pool : PoolMap) (host : List Char) (port : Int)
    (alive : Nat → Bool) : AcqResult × PoolMap × List Nat :=
  let key : PoolKey := (host, port)
  match (pool key).getLast? with
  | some sock =>
    let pool1 := poolSet pool key (pool key).dropLast
    if alive sock then (.reused sock, pool1, [])
    else (.dialed 30, pool1, [])
  | none => (.dialed 30, pool, [])

/-- `ConnectionPool.return_connection`: append the socket to the key's
idle list when it holds fewer than 10 sockets, else close the socket.
Result: the pool afterwards and whether the socket was closed. -/
def return_connection (pool : PoolMap) (host : List Char) (port : Int)
    (sock : Nat) : PoolMap × Bool :=
  let key : PoolKey := (host, port)
  if (pool key).length < 10 then
    (poolSet pool key (pool key ++ [sock]), false)
  else (pool, true)

/-- The empty pool. -/
def emptyPool : PoolMap := fun _ => []

/-! ## Enterprise proxy: rate limiter (`RateLimiter.py`)

Timestamps are rationals (`time.time()` values).  The per-IP bucket is
the list `self.requests[client_ip]`; buckets of distinct IPs never
interact, so the dictionary is modelled per bucket, with a map wrapper
for the dictionary itself. -/

/-- `RateLimiter.check_limit` on one IP's bucket at time `now`: prune
entries with `now - t >= 60`, deny if 100 or more remain, else append
`now` and permit.  Returns `(permitted, new bucket)`. -/
def check_limit (bucket : List ℚ) (now : ℚ) : Bool × List ℚ :=
  let pruned := bucket.filter (fun t => now - t < 60)
  if 100 ≤ pruned.length then (false, pruned)
  else (true, pruned ++ [now])

/-- The `self.requests` dictionary: `check_limit` for a given IP touches
only that IP's bucket. -/
def check_limit_map (requests : String → List ℚ) (ip : String) (now : ℚ) :
    Bool × (String → List ℚ) :=
  let (ok, bucket) := check_limit (requests ip) now
  (ok, fun ip2 => if ip2 = ip then bucket else requests ip2)

/-- A sequence of `check_limit` calls for one IP starting from a given
bucket: the list of `(call time, permitted?)` outcomes in order. -/
def runLimiterFrom (bucket : List ℚ) : List ℚ → List (ℚ × Bool)
  | [] => []
  | t :: ts =>
    let (ok, bucket2) := check_limit bucket t
    (t, ok) :: runLimiterFrom bucket2 ts

/-- A fresh client's run (`client_ip not in self.requests` gives `[]`). -/
def runLimiter (times : List ℚ) : List (ℚ × Bool) := runLimiterFrom [] times

/-- The number of permitted calls whose timestamp lies in the sliding
window `(w, w + 60]`. -/
def windowPermits (rs : List (ℚ × Bool)) (w : ℚ) : Nat :=
  (rs.filter (fun r => r.2 ∧ w < r.1 ∧ r.1 ≤ w + 60)).length

/-! ## Enterprise proxy: CONNECT tunnel events
(`AnonyNetEnterpriseProxy._handle_https_connection` / `_establish_tunnel`)

The CONNECT path is modelled as the ordered list of externally visible
actions.  `_establish_tunnel` acquires an upstream socket from the pool,
sends `200 Connection Established` to the client, runs the bidirectional
relay, and in its `finally` block hands the upstream socket back to
`return_connection`.  It receives only `(context, upstream)` — the
initial read buffer is not passed in, and no bytes are ever written to
the upstream socket before the relay. -/

/-- An externally visible action of the enterprise CONNECT path. -/
inductive TEvent where
  /-- `connection_pool.get_connection(host, port)` -/
  | poolAcquire (host : List Char) (port : Int)
  /-- bytes sent to the client socket -/
  | sendClient (s : String)
  /-- bytes written to the upstream socket before the relay -/
  | sendUpstream (bytes : List Nat)
  /-- `_tunnel_data` starts the bidirectional relay -/
  | tunnelRelay
  /-- `connection_pool.return_connection(host, port, sock)` -/
  | poolReturn (host : List Char) (port : Int)
  deriving DecidableEq, Repr

/-- Python `bytes.decode('utf-8', errors='ignore')` restricted to the
ASCII range: non-ASCII bytes are dropped.  (Multi-byte UTF-8 sequences
never occur before the request line's end, which is all the CONNECT
parser reads.) -/
def pyDecodeIgnore (bytes : List Nat) : List Char :=
  (bytes.filter (· < 128)).map Char.ofNat

/-- Python `s.split("\r\n")[0]`: the characters before the first CRLF
(the whole string when no CRLF occurs). -/
def takeUntilCRLF : List Char → List Char
  | [] => []
  | '\r' :: '\n' :: _ => []
  | c :: rest => c :: takeUntilCRLF rest

/-- `AnonyNetEnterpriseProxy._parse_connect_request`: host and port from
the first `\r\n`-separated line's second token; default port 443; on any
failure `('', 443)`. -/
def parse_connect_request (data : List Nat) : List Char × Int :=
  let firstLine := takeUntilCRLF (pyDecodeIgnore data)
  let parts := pySplitWs firstLine
  if 2 ≤ parts.length then
    let target := parts.getD 1 []
    if target.contains ':' then
      match pySplitOnce ':' target with
      | some (host, portStr) =>
        match pyToInt portStr with
        | some p => (host, p)
        | none => ([], 443)
      | none => ([], 443)
    else (target, 443)
  else ([], 443)

/-- `AnonyNetEnterpriseProxy._establish_tunnel` on the success path
(upstream acquired, no exception): acquire, send
`200 Connection Established`, relay, and return the upstream socket to
the pool in the `finally` block. -/
def establish_tunnel (host : List Char) (port : Int) : List TEvent :=
  [.poolAcquire host port,
   .sendClient "HTTP/1.1 200 Connection Established\r\n\r\n",
   .tunnelRelay,
   .poolReturn host port]

/-- `AnonyNetEnterpriseProxy._handle_https_connection`: parse the CONNECT
target, extract the SNI from the same initial buffer, pass the access
check (`AuthManager.check_access` always returns `True`), consult the
rate limiter, then tunnel to the routed upstream or directly to the
target.  Returns the recorded SNI and the event list. -/
def handle_https_connection (initialData : List Nat) (rateOk : Bool)
    (routed : Option (List Char × Int)) : Option String × List TEvent :=
  let (targetHost, targetPort) := parse_connect_request initialData
  let sni := extract_sni initialData
  if ¬rateOk then (sni, [.sendClient "HTTP/1.1 429 Too Many Requests\r\n\r\n"])
  else
    let upstream := routed.getD (targetHost, targetPort)
    (sni, establish_tunnel upstream.1 upstream.2)

/-! ## Helper lemmas -/

/-- The reason component of `scanCategories` is never the empty string:
every hit is prefixed with a nonempty category label and the miss case is
`"Not Blocked"`. -/
theorem scanCategories_snd_ne_nil (d : List Char)
    (cs : List (String × List (List Char × String)))
    (hcs : ∀ p ∈ cs, p.1.data ≠ []) :
    (scanCategories d cs).2.data ≠ [] := by
  induction cs with
  | nil => simp [scanCategories]
  | cons hd tl ih =>
    obtain ⟨lbl, tbl⟩ := hd
    rcases hcg : check_and_get_reason d tbl with ⟨b, r⟩
    cases b with
    | true =>
      have hlbl : lbl.data ≠ [] := hcs (lbl, tbl) (by simp)
      simp only [scanCategories, hcg, String.data_append]
      intro hcontra
      exact hlbl (List.append_eq_nil.mp hcontra).1
    | false =>
      simp only [scanCategories, hcg]
      exact ih (fun p hp => hcs p (List.mem_cons_of_mem _ hp))

/-! ## Claim C1 — the 403 gate of `handle_client` -/

/-- Claim C1: the claim says `handle_client` sends `403 Forbidden` if and only
if the blocklist classifies the target host as blocked.  The code
violates this: `handle_client` unpacks
`reason, is_blocked = is_domain_blocked(host)` in swapped order, so
`is_blocked` is bound to the reason string, which is always nonempty
(`"Not Blocked"` on a miss) and hence always truthy.  This theorem
evaluates the code at the failing input `CONNECT example.com:443`:
the blocklist reports the host not blocked, yet the handler sends the
`403 Blocked Domain` response (and dials no upstream); the truthiness
gate fires for every host. -/
theorem connect_gate_always_blocks :
    (is_domain_blocked "example.com".data).1 = false ∧
    handle_client "CONNECT example.com:443 HTTP/1.1\r\n\r\n".data =
      [.blocklistCheck "example.com".data, .send forbiddenResponse, .closeClient] ∧
    (∀ host : List Char, handleClientGate host = true) := by
  refine ⟨by decide, by decide, fun host => ?_⟩
  have h : (is_domain_blocked host).2.data ≠ [] :=
    scanCategories_snd_ne_nil (pyLower host) categoryChecks (by decide)
  simp only [handleClientGate, ne_eq, decide_eq_true_eq]
  intro hcontra
  exact h (by rw [hcontra])

/-! ## Claim C10 — `GET /` answered locally -/

/-- Claim C10: for every non-CONNECT request whose request line parses to
exactly the three tokens `GET`, `/`, and a version, `handle_client`
sends `HTTP/1.1 200 OK` with the two-byte body `OK` and performs no
other action: the event list is exactly `[send okResponse]`, so the
blocklist is never consulted and no upstream is dialed. -/
theorem get_root_served_locally (req v : List Char)
    (hne : req ≠ [])
    (hnc : "CONNECT".data.isPrefixOf req = false)
    (hline : pySplitWs ((pySplitChar '\n' req).headD []) =
      ["GET".data, "/".data, v]) :
    handle_client req = [.send okResponse] := by
  simp only [handle_client, if_neg hne, hnc, Bool.false_eq_true, if_false, hline]
  rw [if_pos ⟨trivial, by decide⟩]

/-- Witness for C10 at the concrete request
`GET / HTTP/1.1\r\nHost: example.com\r\n\r\n`. -/
theorem get_root_served_locally_witness :
    handle_client "GET / HTTP/1.1\r\nHost: example.com\r\n\r\n".data =
      [.send okResponse] :=
  get_root_served_locally "GET / HTTP/1.1\r\nHost: example.com\r\n\r\n".data
    "HTTP/1.1".data (by decide) (by decide) (by decide)

/-! ## Claim C9 — SNI of CONNECT connections is always absent -/

/-- The byte prefix `b"CONNECT"` checked by
`_process_connection` before dispatching to `_handle_https_connection`. -/
def connectPrefixBytes : List Nat := "CONNECT".data.map Char.toNat

/-- Claim C9: `_extract_sni` returns `None` for every buffer whose first byte
is not 0x16, and `_handle_https_connection` is invoked only on initial
buffers starting with the ASCII bytes of `CONNECT` (first byte 0x43), so
the recorded SNI of every CONNECT connection handled by the enterprise
proxy is absent: both the raw extractor and the handler's recorded SNI
are `none` on every such buffer, for every rate-limit outcome and
routing decision. -/
theorem connect_sni_always_absent (data : List Nat)
    (h : connectPrefixBytes.isPrefixOf data = true) :
    extract_sni data = none ∧
    ∀ (rateOk : Bool) (routed : Option (List Char × Int)),
      (handle_https_connection data rateOk routed).1 = none := by
  have hpre : connectPrefixBytes <+: data := List.isPrefixOf_iff_prefix.mp h
  obtain ⟨t, rfl⟩ := hpre
  have hsni : extract_sni (connectPrefixBytes ++ t) = none := by
    simp [extract_sni, connectPrefixBytes]
  refine ⟨hsni, fun rateOk routed => ?_⟩
  simp only [handle_https_connection, hsni]
  split <;> rfl

/-- Witness for C9 at a concrete CONNECT request buffer. -/
theorem connect_sni_always_absent_witness :
    extract_sni ("CONNECT example.com:443 HTTP/1.1\r\n\r\n".data.map Char.toNat) = none ∧
    ∀ (rateOk : Bool) (routed : Option (List Char × Int)),
      (handle_https_connection
        ("CONNECT example.com:443 HTTP/1.1\r\n\r\n".data.map Char.toNat)
        rateOk routed).1 = none :=
  connect_sni_always_absent _ (by decide)

/-! ## Claim C8 — SNI extraction: total, but out-of-bounds lengths are
not always absent

A ClientHello whose `extensions_len` and `ext_len` fields both read 255
— far past the end of the 62-byte buffer — still parses to an SNI,
because slices clip silently instead of raising, so the claim's
"absent whenever any length field runs out of bounds" leg is false of
the code. -/

/-- A ClientHello whose extensions-length field (offset 50) and
server_name-extension length field (offset 54) both hold 255, although
the buffer ends at byte 62: the extension body is clipped, yet the
server-name entry still decodes to `a`. -/
def oobHello : List Nat :=
  [0x16, 0x03, 0x01, 0, 0,
   0x01, 0, 0, 0,
   3, 3] ++ List.replicate 32 0 ++
  [0,
   0, 2, 0, 0,
   1, 0,
   0, 255,
   0, 0,
   0, 255,
   0, 3, 0, 0, 1, 0x61]

/-- Claim C8, counterexample: the claim says extraction returns absent
whenever any length field runs out of bounds.  On `oobHello` both the
extensions vector length (255, covering bytes 52 to 307 of a 62-byte
buffer) and the server_name extension length (255) overrun the buffer,
yet extraction returns the name `a` rather than absent: the clipped
slices still contain a well-formed server-name entry. -/
theorem sni_oob_length_returns_name_cex :
    extract_sni oobHello = some "a" ∧
    oobHello.length = 62 ∧
    u16 oobHello 50 = 255 ∧ u16 oobHello 54 = 255 ∧
    oobHello.length < 52 + 255 ∧ oobHello.length < 56 + 255 := by
  refine ⟨by decide, by decide, by decide, by decide, by decide, by decide⟩

/-- A name produced by the server-name walk always comes from an entry
with name_type 0 whose bytes decode as ASCII. -/
theorem sniNameLoop_some (fuel : Nat) :
    ∀ (data : List Nat) (pos : Nat) (s : String),
      sniNameLoop fuel data pos = some s →
      ∃ p, data.getD p 0 = 0 ∧
        decodeAscii (pySlice data (p + 3) (u16 data (p + 1))) = some s := by
  induction fuel with
  | zero =>
    intro data pos s h
    simp [sniNameLoop] at h
  | succ fuel ih =>
    intro data pos s h
    simp only [sniNameLoop] at h
    split at h
    · split at h
      · next hcond => exact ⟨pos, hcond.1, h⟩
      · exact ih data (pos + 3 + u16 data (pos + 1)) s h
    · simp at h

/-- A name produced by `parse_sni_extension` comes from a name_type-0
entry of its input. -/
theorem parse_sni_extension_some (data : List Nat) (s : String)
    (h : parse_sni_extension data = some s) :
    ∃ p, data.getD p 0 = 0 ∧
      decodeAscii (pySlice data (p + 3) (u16 data (p + 1))) = some s := by
  rw [parse_sni_extension] at h
  split at h
  · simp at h
  · exact sniNameLoop_some (data.length + 1) data 2 s h

/-- A name produced by the extension walk always comes from an extension
of type 0 (server_name), through `parse_sni_extension` on that
extension's (possibly clipped) body. -/
theorem extensionLoop_some (fuel : Nat) :
    ∀ (data : List Nat) (endPos pos : Nat) (s : String),
      extensionLoop fuel data endPos pos = some s →
      ∃ p, u16 data p = 0 ∧
        parse_sni_extension (pySlice data (p + 4) (u16 data (p + 2))) = some s := by
  induction fuel with
  | zero =>
    intro data endPos pos s h
    simp [extensionLoop] at h
  | succ fuel ih =>
    intro data endPos pos s h
    simp only [extensionLoop] at h
    split at h
    · split at h
      · split at h
        · next hty => exact ⟨pos, hty, h⟩
        · exact ih data endPos (pos + 4 + u16 data (pos + 2)) s h
      · simp at h
    · simp at h

/-- The extensions step of `extract_sni` (the final guarded call of the
definition, for any computed position): a name it produces comes from a
type-0 extension. -/
theorem extract_tail_some (data : List Nat) (pos : Nat) (s : String)
    (h : (if pos + 2 ≤ data.length then
            extensionLoop (pos + 2 + u16 data pos + 1) data
              (pos + 2 + u16 data pos) (pos + 2)
          else none) = some s) :
    ∃ p, u16 data p = 0 ∧
      parse_sni_extension (pySlice data (p + 4) (u16 data (p + 2))) = some s := by
  split at h
  · exact extensionLoop_some _ data _ _ s h
  · simp at h

/-- Claim C8, amended: SNI extraction is a total function (`extract_sni`
is a Lean `def`, so it terminates on every input; the paths where the
Python would raise inside its `try` are the explicit `none` branches of
the model, so it never throws), and it is conservative about WHERE a
name can come from: (1) a returned name implies the buffer is a TLS
handshake record (first byte 0x16, at least 9 bytes) holding a
ClientHello (0x01 at offset 5) — every other buffer, garbage included,
yields absent; (2) a returned name comes only from a server_name
(type 0) extension, so a buffer whose extension walk has no such
extension yields absent; (3) within that extension, only a
name_type-0 entry decoding as ASCII can produce the name.  A length
field running out of bounds, however, need not yield absent: slices
clip silently (see the counterexample `oobHello`). -/
theorem sni_extraction_total_and_scoped :
    (∀ data : List Nat, (extract_sni data).isSome = true →
      9 ≤ data.length ∧ data.getD 0 0 = 0x16 ∧ data.getD 5 0 = 0x01) ∧
    (∀ (data : List Nat) (s : String), extract_sni data = some s →
      ∃ p, u16 data p = 0 ∧
        parse_sni_extension (pySlice data (p + 4) (u16 data (p + 2))) = some s) ∧
    (∀ (data : List Nat) (s : String), parse_sni_extension data = some s →
      ∃ p, data.getD p 0 = 0 ∧
        decodeAscii (pySlice data (p + 3) (u16 data (p + 1))) = some s) := by
  refine ⟨fun data h => ?_, fun data s h => ?_, fun data s h => ?_⟩
  · rw [extract_sni] at h
    by_cases h1 : data.length < 5 ∨ data.getD 0 0 ≠ 0x16
    · rw [if_pos h1] at h; simp at h
    · rw [if_neg h1] at h
      by_cases h2 : data.length < 9 ∨ data.getD 5 0 ≠ 0x01
      · rw [if_pos h2] at h; simp at h
      · push_neg at h1 h2
        exact ⟨h2.1, h1.2, h2.2⟩
  · rw [extract_sni] at h
    by_cases h1 : data.length < 5 ∨ data.getD 0 0 ≠ 0x16
    · rw [if_pos h1] at h; simp at h
    · rw [if_neg h1] at h
      by_cases h2 : data.length < 9 ∨ data.getD 5 0 ≠ 0x01
      · rw [if_pos h2] at h; simp at h
      · rw [if_neg h2] at h
        exact extract_tail_some data _ s h
  · exact parse_sni_extension_some data s h

/-- Witness for the amended C8: the minimal ClientHello `helloX` parses
to `x`, satisfying each part's hypothesis, and the source of the name is
exhibited. -/
theorem sni_extraction_total_and_scoped_witness :
    (extract_sni helloX).isSome = true ∧
    (9 ≤ helloX.length ∧ helloX.getD 0 0 = 0x16 ∧ helloX.getD 5 0 = 0x01) ∧
    (∃ p, u16 helloX p = 0 ∧
      parse_sni_extension (pySlice helloX (p + 4) (u16 helloX (p + 2))) =
        some "x") :=
  ⟨by decide,
   sni_extraction_total_and_scoped.1 helloX (by decide),
   sni_extraction_total_and_scoped.2.1 helloX "x" (by decide)⟩

/-! ## Claim C2 — residual CONNECT bytes are never forwarded -/

/-- Recognises upstream writes in a tunnel event list. -/
def isSendUpstream : TEvent → Bool
  | .sendUpstream _ => true
  | _ => false

/-- A CONNECT request with a pipelined ClientHello in the same read: the
residual bytes after the request line's CRLF CRLF are `helloX`. -/
def connectWithHello : List Nat :=
  ("CONNECT example.com:443 HTTP/1.1\r\n\r\n".data.map Char.toNat) ++ helloX

/-- Claim C2: the claim says the handler forwards the bytes that follow the
CONNECT line's terminating CRLF CRLF to the upstream socket before the
relay begins.  The code violates this: `_establish_tunnel` receives only
`(context, upstream)` — the initial read buffer is never passed to it —
and writes nothing to the upstream before `_tunnel_data`, so pipelined
residual bytes (for example a ClientHello read together with the CONNECT
line) are silently dropped.  This theorem shows the tunnel event list
contains no upstream write whatsoever, on every input — in particular on
the failing input `connectWithHello`, whose residual bytes `helloX` are
nonempty yet absent from the events. -/
theorem tunnel_never_forwards_residual :
    (∀ (host : List Char) (port : Int),
      (establish_tunnel host port).filter isSendUpstream = []) ∧
    (∀ (data : List Nat) (rateOk : Bool) (routed : Option (List Char × Int)),
      ((handle_https_connection data rateOk routed).2.filter isSendUpstream) = []) ∧
    (handle_https_connection connectWithHello true none).2 =
      establish_tunnel "example.com".data 443 := by
  refine ⟨fun host port => rfl, fun data rateOk routed => ?_, by decide⟩
  rcases routed with - | up <;> cases rateOk <;>
    simp [handle_https_connection, establish_tunnel, isSendUpstream]

/-! ## Claim C3 — tunnel upstream sockets are returned to the pool -/

/-- Claim C3: the claim says that when a CONNECT relay terminates both sockets
are closed and the upstream socket is never placed back into the pool.
The code violates the second half: `_establish_tunnel`'s `finally` block
hands the upstream socket to `ConnectionPool.return_connection`, which
appends it to the idle list whenever the key holds fewer than 10 sockets
(closing it only when the list is full).  This theorem shows (1) the
tunnel event list ends with a pool return after the relay, and (2) on a
pool whose key list is below the cap, `return_connection` stores the
socket and does not close it. -/
theorem tunnel_returns_upstream_to_pool :
    (∀ (host : List Char) (port : Int),
      establish_tunnel host port =
        [.poolAcquire host port,
         .sendClient "HTTP/1.1 200 Connection Established\r\n\r\n",
         .tunnelRelay,
         .poolReturn host port]) ∧
    (∀ (pool : PoolMap) (host : List Char) (port : Int) (sock : Nat),
      (pool (host, port)).length < 10 →
        return_connection pool host port sock =
          (poolSet pool (host, port) (pool (host, port) ++ [sock]), false)) := by
  refine ⟨fun host port => rfl, fun pool host port sock hlen => ?_⟩
  simp only [return_connection, if_pos hlen]

/-- Witness for C3: a tunnel to `example.com:443` whose upstream socket
is returned to an empty pool — the socket ends up pooled, not closed. -/
theorem tunnel_returns_upstream_to_pool_witness :
    establish_tunnel "example.com".data 443 =
      [.poolAcquire "example.com".data 443,
       .sendClient "HTTP/1.1 200 Connection Established\r\n\r\n",
       .tunnelRelay,
       .poolReturn "example.com".data 443] ∧
    return_connection emptyPool "example.com".data 443 7 =
      (poolSet emptyPool ("example.com".data, 443)
        (emptyPool ("example.com".data, 443) ++ [7]), false) :=
  ⟨tunnel_returns_upstream_to_pool.1 "example.com".data 443,
   tunnel_returns_upstream_to_pool.2 emptyPool "example.com".data 443 7
     (by decide)⟩

/-! ## Claim C6 — pool acquire with a dead pooled socket -/

/-- A pool holding two idle sockets for `example.com:443`: socket 1
(added first) and socket 2 (added last, so popped first). -/
def cexPool : PoolMap := poolSet emptyPool ("example.com".data, 443) [1, 2]

/-- A liveness oracle under which socket 1 is alive and socket 2 dead. -/
def cexAlive : Nat → Bool := fun s => s = 1

/-- Claim C6, counterexample: the claim says that when acquire pops a dead idle
socket it closes it and retries the remaining idle sockets, dialing
fresh only once the list is empty.  At this concrete input the popped
socket 2 is dead while socket 1 is still idle and alive; the code closes
nothing (`closed = []`, so the dead socket 2 is not closed), leaves the
live socket 1 sitting in the pool, and immediately dials fresh —
contradicting both the close and the retry the claim requires. -/
theorem pool_acquire_no_retry_cex :
    get_connection cexPool "example.com".data 443 cexAlive =
      (.dialed 30, poolSet cexPool ("example.com".data, 443) [1], []) ∧
    cexAlive 2 = false ∧ cexAlive 1 = true ∧
    cexPool ("example.com".data, 443) = [1, 2] ∧
    (poolSet cexPool ("example.com".data, 443) [1]) ("example.com".data, 443) = [1] := by
  refine ⟨?_, by decide, by decide, by decide, by decide⟩
  have h : (cexPool ("example.com".data, 443)).getLast? = some 2 := by decide
  have ha : cexAlive 2 = false := by decide
  have hd : (cexPool ("example.com".data, 443)).dropLast = [1] := by decide
  simp only [get_connection, h, ha, hd, Bool.false_eq_true, if_false]

/-- Claim C6, amended: when `get_connection` pops the most recently added idle
socket and its liveness probe fails, the dead socket is discarded from
the pool without being closed, the remaining idle sockets are not
retried, and a fresh connection is dialed with a 30-second timeout. -/
theorem pool_acquire_dead_dials_fresh (pool : PoolMap) (host : List Char)
    (port : Int) (alive : Nat → Bool) (s : Nat)
    (hpop : (pool (host, port)).getLast? = some s)
    (hdead : alive s = false) :
    get_connection pool host port alive =
      (.dialed 30, poolSet pool (host, port) (pool (host, port)).dropLast, []) := by
  simp only [get_connection, hpop, hdead, Bool.false_eq_true, if_false]

/-- Witness for the amended C6 at the concrete pool `cexPool`. -/
theorem pool_acquire_dead_dials_fresh_witness :
    get_connection cexPool "example.com".data 443 cexAlive =
      (.dialed 30,
       poolSet cexPool ("example.com".data, 443)
         (cexPool ("example.com".data, 443)).dropLast, []) :=
  pool_acquire_dead_dials_fresh cexPool "example.com".data 443 cexAlive 2
    (by decide) (by decide)

/-! ## Claim C7 — blocklist normalization -/

/-- Evaluating `Char.ofNat` and `Char.toNat` round-trips on the ASCII
range (all the blocklist's normalization touches). -/
theorem charToNat_ofNat_ascii : ∀ m < 128, (Char.ofNat m).toNat = m := by
  decide

/-- Lowercasing after uppercasing agrees with plain lowercasing,
character by character. -/
theorem toLower_toUpper_eq_toLower (c : Char) :
    c.toUpper.toLower = c.toLower := by
  unfold Char.toUpper Char.toLower
  by_cases h : c.toNat ≥ 97 ∧ c.toNat ≤ 122
  · rw [if_pos h]
    have ht : (Char.ofNat (c.toNat - 32)).toNat = c.toNat - 32 :=
      charToNat_ofNat_ascii _ (by omega)
    rw [ht, if_pos (by omega), if_neg (by omega)]
    have : c.toNat - 32 + 32 = c.toNat := by omega
    rw [this, Char.ofNat_toNat]
  · rw [if_neg h]

/-- Lowercasing is unaffected by prior uppercasing. -/
theorem pyLower_pyUpper (l : List Char) : pyLower (pyUpper l) = pyLower l := by
  simp only [pyLower, pyUpper, List.map_map]
  exact List.map_congr_left (fun c _ => toLower_toUpper_eq_toLower c)

/-- Claim C7, counterexample: the claim says classification is insensitive to a
trailing dot (`classify(h) == classify(h + ".")`).  The code only
lowercases — it never strips a trailing dot — so `doubleclick.net` is
blocked while `doubleclick.net.` is not. -/
theorem blocklist_trailing_dot_cex :
    (is_domain_blocked "doubleclick.net".data).1 = true ∧
    (is_domain_blocked ("doubleclick.net" ++ ".").data).1 = false := by
  constructor <;> decide

/-- Claim C7, amended: classification is deterministic and case-insensitive —
`classify(h) == classify(upper(h))` for every hostname — but a trailing
dot is not stripped, so `classify(h + ".")` can differ (see the
counterexample). -/
theorem blocklist_case_insensitive (d : List Char) :
    is_domain_blocked (pyUpper d) = is_domain_blocked d := by
  unfold is_domain_blocked
  rw [pyLower_pyUpper]

/-! ## Claim C5 — blocklist suffix-match semantics

The code enumerates candidates `".".join(parts[i:])` over
`parts = domain.split('.')`; the spec describes the match as
`h == e` or `h` ending with `"." + e`.  The lemmas below show the two
are the same predicate. -/

/-- Unfolding `pySplitChar` one character, given the split of the tail. -/
theorem pySplitChar_cons (sep c : Char) (rest h : List Char)
    (t : List (List Char)) (hsp : pySplitChar sep rest = h :: t) :
    pySplitChar sep (c :: rest) =
      if c = sep then [] :: h :: t else (c :: h) :: t := by
  simp only [pySplitChar, hsp]

/-- `pySplitChar` always produces at least one field. -/
theorem pySplitChar_ne_nil (sep : Char) (l : List Char) :
    pySplitChar sep l ≠ [] := by
  cases l with
  | nil => simp [pySplitChar]
  | cons c rest =>
    rcases hsp : pySplitChar sep rest with - | ⟨h, t⟩
    · simp [pySplitChar, hsp]
    · rw [pySplitChar_cons sep c rest h t hsp]
      split <;> simp

/-- `joinDot` peels a head character off the first field. -/
theorem joinDot_cons_cons (c : Char) (h : List Char) (t : List (List Char)) :
    joinDot ((c :: h) :: t) = c :: joinDot (h :: t) := by
  cases t <;> simp [joinDot]

/-- Joining the fields of a dot split restores the string
(`".".join(d.split('.')) == d`). -/
theorem joinDot_pySplitDot (l : List Char) :
    joinDot (pySplitChar '.' l) = l := by
  induction l with
  | nil => rfl
  | cons c rest ih =>
    rcases hsp : pySplitChar '.' rest with - | ⟨h, t⟩
    · exact absurd hsp (pySplitChar_ne_nil '.' rest)
    · rw [hsp] at ih
      rw [pySplitChar_cons '.' c rest h t hsp]
      by_cases hc : c = '.'
      · subst hc
        rw [if_pos rfl]
        show '.' :: joinDot (h :: t) = '.' :: rest
        rw [ih]
      · rw [if_neg hc, joinDot_cons_cons, ih]

/-- Every nonempty suffix of the dot split is either the whole split or
joins to a suffix of the string that sits right after a dot. -/
theorem suffix_joinDot_dotted (l : List Char) :
    ∀ s, s ≠ [] → s <:+ pySplitChar '.' l →
      s = pySplitChar '.' l ∨ ∃ pre, l = pre ++ '.' :: joinDot s := by
  induction l with
  | nil =>
    intro s hne hs
    rcases List.suffix_cons_iff.mp hs with h | h
    · exact Or.inl h
    · exact absurd (List.suffix_nil.mp h) hne
  | cons c rest ih =>
    intro s hne hs
    rcases hsp : pySplitChar '.' rest with - | ⟨h, t⟩
    · exact absurd hsp (pySplitChar_ne_nil '.' rest)
    · rw [hsp] at ih
      rw [pySplitChar_cons '.' c rest h t hsp] at hs ⊢
      by_cases hc : c = '.'
      · subst hc
        rw [if_pos rfl] at hs ⊢
        rcases List.suffix_cons_iff.mp hs with hwhole | htail
        · exact Or.inl hwhole
        · rcases ih s hne htail with hfull | ⟨pre, hpre⟩
          · refine Or.inr ⟨[], ?_⟩
            have : joinDot s = rest := by
              rw [hfull, ← hsp, joinDot_pySplitDot]
            simp [this]
          · exact Or.inr ⟨'.' :: pre, by simp [hpre]⟩
      · rw [if_neg hc] at hs ⊢
        rcases List.suffix_cons_iff.mp hs with hwhole | htail
        · exact Or.inl hwhole
        · have hs2 : s <:+ h :: t := htail.trans (List.suffix_cons h t)
          rcases ih s hne hs2 with hfull | ⟨pre, hpre⟩
          · have hlen := htail.length_le
            rw [hfull] at hlen
            simp at hlen
          · exact Or.inr ⟨c :: pre, by simp [hpre]⟩

/-- Splitting a string of the form `pre ++ "." ++ e` puts the split of
`e` as a suffix of the tail of the split (so in particular among the
candidates `parts[i:]` with `i >= 1`). -/
theorem split_of_dotted_suffix (pre e : List Char) :
    pySplitChar '.' e <:+ (pySplitChar '.' (pre ++ '.' :: e)).tail := by
  induction pre with
  | nil =>
    rcases hsp : pySplitChar '.' e with - | ⟨h, t⟩
    · exact absurd hsp (pySplitChar_ne_nil '.' e)
    · rw [List.nil_append, pySplitChar_cons '.' '.' e h t hsp, if_pos rfl,
        List.tail_cons, ← hsp]
  | cons c pre2 ih =>
    rcases hsp : pySplitChar '.' (pre2 ++ '.' :: e) with - | ⟨h, t⟩
    · exact absurd hsp (pySplitChar_ne_nil '.' (pre2 ++ '.' :: e))
    · rw [hsp] at ih
      rw [List.cons_append, pySplitChar_cons '.' c (pre2 ++ '.' :: e) h t hsp]
      by_cases hc : c = '.'
      · rw [if_pos hc, List.tail_cons]
        exact ih.trans (List.suffix_cons h t)
      · rw [if_neg hc, List.tail_cons]
        exact ih

/-- `lookupD` succeeds exactly when the key is in the table. -/
theorem lookupD_isSome_iff (k : List Char) (bl : List (List Char × String)) :
    (lookupD k bl).isSome = true ↔ ∃ r, (k, r) ∈ bl := by
  rw [lookupD, Option.isSome_map', List.find?_isSome]
  constructor
  · rintro ⟨⟨e, r⟩, hmem, heq⟩
    simp only [decide_eq_true_eq] at heq
    exact ⟨r, by rw [← heq]; exact hmem⟩
  · rintro ⟨r, hmem⟩
    exact ⟨(k, r), hmem, by simp⟩

/-- `candScan` succeeds exactly when some nonempty suffix of the field
list joins to a key of the table. -/
theorem candScan_isSome_iff (parts : List (List Char))
    (bl : List (List Char × String)) :
    (candScan parts bl).isSome = true ↔
      ∃ s, s ≠ [] ∧ s <:+ parts ∧ (lookupD (joinDot s) bl).isSome = true := by
  induction parts with
  | nil =>
    simp only [candScan, Option.isSome_none, Bool.false_eq_true, false_iff]
    rintro ⟨s, hne, hs, -⟩
    exact hne (List.suffix_nil.mp hs)
  | cons p t ih =>
    rcases hl : lookupD (joinDot (p :: t)) bl with - | r
    · simp only [candScan, hl, ih]
      constructor
      · rintro ⟨s, hne, hs, hlook⟩
        exact ⟨s, hne, hs.trans (List.suffix_cons p t), hlook⟩
      · rintro ⟨s, hne, hs, hlook⟩
        rcases List.suffix_cons_iff.mp hs with hwhole | htail
        · rw [hwhole] at hlook
          rw [hl] at hlook
          simp at hlook
        · exact ⟨s, hne, htail, hlook⟩
    · simp only [candScan, hl, Option.isSome_some, true_iff]
      exact ⟨p :: t, by simp, List.suffix_refl _, by rw [hl]; rfl⟩

/-- The spec-side match predicate of claim C5 (`h == e` or `h` ends with
`"." + e`), as a boolean over a whole category table. -/
def specCategoryHit (d : List Char) (tbl : List (List Char × String)) : Bool :=
  tbl.any (fun p => d = p.1 ∨ ('.' :: p.1).isSuffixOf d)

/-- The hit bit of `check_and_get_reason` coincides with the spec-side
suffix-match predicate. -/
theorem check_fst_eq_specHit (d : List Char) (bl : List (List Char × String)) :
    (check_and_get_reason d bl).1 = specCategoryHit d bl := by
  rw [Bool.eq_iff_iff]
  constructor
  · intro hchk
    rcases hl : lookupD d bl with - | r
    · rcases hc : candScan (pySplitChar '.' d) bl with - | r2
      · rw [check_and_get_reason, hl, hc] at hchk
        simp at hchk
      · have hiso : (candScan (pySplitChar '.' d) bl).isSome = true := by
          rw [hc]; rfl
        obtain ⟨s, hne, hs, hlook⟩ := (candScan_isSome_iff _ _).mp hiso
        obtain ⟨r3, hmem⟩ := (lookupD_isSome_iff _ _).mp hlook
        rcases suffix_joinDot_dotted d s hne hs with hwhole | ⟨pre, hpre⟩
        · rw [hwhole, joinDot_pySplitDot] at hmem
          simp only [specCategoryHit, List.any_eq_true, decide_eq_true_eq]
          exact ⟨(d, r3), hmem, Or.inl rfl⟩
        · simp only [specCategoryHit, List.any_eq_true, decide_eq_true_eq]
          refine ⟨(joinDot s, r3), hmem, Or.inr ?_⟩
          rw [List.isSuffixOf_iff_suffix]
          exact ⟨pre, hpre.symm⟩
    · obtain ⟨r2, hmem⟩ := (lookupD_isSome_iff d bl).mp (by rw [hl]; rfl)
      simp only [specCategoryHit, List.any_eq_true, decide_eq_true_eq]
      exact ⟨(d, r2), hmem, Or.inl rfl⟩
  · intro hspec
    simp only [specCategoryHit, List.any_eq_true, decide_eq_true_eq] at hspec
    obtain ⟨⟨e, r⟩, hmem, hor⟩ := hspec
    rcases hl : lookupD d bl with - | r2
    · have hcand : (candScan (pySplitChar '.' d) bl).isSome = true := by
        rw [candScan_isSome_iff]
        rcases hor with heq | hsuf
        · exact ⟨pySplitChar '.' d, pySplitChar_ne_nil '.' d,
            List.suffix_refl _, by
              rw [joinDot_pySplitDot, lookupD_isSome_iff]
              exact ⟨r, by rw [heq]; exact hmem⟩⟩
        · rw [List.isSuffixOf_iff_suffix] at hsuf
          obtain ⟨pre, hpre⟩ := hsuf
          have hpre2 : pre ++ '.' :: e = d := hpre
          refine ⟨pySplitChar '.' e, pySplitChar_ne_nil '.' e, ?_, by
            rw [joinDot_pySplitDot, lookupD_isSome_iff]; exact ⟨r, hmem⟩⟩
          rw [← hpre2]
          exact (split_of_dotted_suffix pre e).trans (List.tail_suffix _)
      rcases hc : candScan (pySplitChar '.' d) bl with - | r3
      · rw [hc] at hcand
        simp at hcand
      · rw [check_and_get_reason, hl, hc]
    · rw [check_and_get_reason, hl]

/-- The spec-side hit predicate, unfolded to the claim's wording:
some entry equals the hostname or is a dotted suffix of it. -/
theorem specHit_iff (dd : List Char) (tbl : List (List Char × String)) :
    specCategoryHit dd tbl = true ↔
      ∃ e r, (e, r) ∈ tbl ∧ (dd = e ∨ ∃ pre, dd = pre ++ '.' :: e) := by
  simp only [specCategoryHit, List.any_eq_true, decide_eq_true_eq,
    List.isSuffixOf_iff_suffix]
  constructor
  · rintro ⟨⟨e, r⟩, hmem, hor⟩
    refine ⟨e, r, hmem, ?_⟩
    rcases hor with heq | ⟨pre, hpre⟩
    · exact Or.inl heq
    · exact Or.inr ⟨pre, hpre.symm⟩
  · rintro ⟨e, r, hmem, hor⟩
    refine ⟨(e, r), hmem, ?_⟩
    rcases hor with heq | ⟨pre, hpre⟩
    · exact Or.inl heq
    · exact Or.inr ⟨pre, hpre.symm⟩

/-- The hit bit of the category scan is the existence of a spec-side hit
in some category. -/
theorem scanCategories_fst_iff (d : List Char)
    (cs : List (String × List (List Char × String))) :
    (scanCategories d cs).1 = true ↔
      ∃ c ∈ cs, specCategoryHit d c.2 = true := by
  induction cs with
  | nil => simp [scanCategories]
  | cons hd tl ih =>
    obtain ⟨lbl, tbl⟩ := hd
    rcases hcg : check_and_get_reason d tbl with ⟨b, r⟩
    have hb : b = specCategoryHit d tbl := by
      rw [← check_fst_eq_specHit d tbl, hcg]
    cases b with
    | true =>
      simp only [scanCategories, hcg, true_iff]
      exact ⟨(lbl, tbl), by simp, hb.symm⟩
    | false =>
      simp only [scanCategories, hcg, ih, List.mem_cons]
      constructor
      · rintro ⟨c, hmem, hhit⟩
        exact ⟨c, Or.inr hmem, hhit⟩
      · rintro ⟨c, hmemc, hhit⟩
        rcases hmemc with rfl | hmem
        · rw [← hb] at hhit
          simp at hhit
        · exact ⟨c, hmem, hhit⟩

/-- The first category (in scan order) with a spec-side hit. -/
def specFirstCategoryIn (d : List Char)
    (cs : List (String × List (List Char × String))) : Option String :=
  (cs.find? (fun c => specCategoryHit d c.2)).map Prod.fst

/-- The first spec-side category hit, over the source's category order. -/
def specFirstCategory (d : List Char) : Option String :=
  specFirstCategoryIn d categoryChecks

/-- When the first spec-side hit is in category `lbl`, the scan's reason
string carries `lbl` as its prefix. -/
theorem scanCategories_label_prefix (d : List Char)
    (cs : List (String × List (List Char × String))) (lbl : String)
    (hfind : specFirstCategoryIn d cs = some lbl) :
    lbl.data <+: (scanCategories d cs).2.data := by
  induction cs with
  | nil => simp [specFirstCategoryIn] at hfind
  | cons hd tl ih =>
    obtain ⟨l0, tbl⟩ := hd
    rcases hcg : check_and_get_reason d tbl with ⟨b, r⟩
    have hb : b = specCategoryHit d tbl := by
      rw [← check_fst_eq_specHit d tbl, hcg]
    cases b with
    | true =>
      have hfound : specFirstCategoryIn d ((l0, tbl) :: tl) = some l0 := by
        rw [specFirstCategoryIn,
          show List.find? (fun c => specCategoryHit d c.2) ((l0, tbl) :: tl) =
              some (l0, tbl) from
            List.find?_cons_of_pos _ (by exact hb.symm)]
        rfl
      rw [hfound] at hfind
      obtain rfl : l0 = lbl := by injection hfind
      simp only [scanCategories, hcg, String.data_append]
      exact List.prefix_append _ _
    | false =>
      rw [specFirstCategoryIn,
        show List.find? (fun c => specCategoryHit d c.2) ((l0, tbl) :: tl) =
            List.find? (fun c => specCategoryHit d c.2) tl from
          List.find?_cons_of_neg _ (by rw [← hb]; simp)] at hfind
      simp only [scanCategories, hcg]
      exact ih hfind

/-- Claim C5: a hostname is classified blocked exactly when some category
table has an entry `e` with the (lowercased) hostname equal to `e` or
ending with `"." + e` — the subdomain-candidate loop over
`domain.split('.')` realizes precisely this dot-boundary suffix match —
and the reason string is labelled with the first matching category in
the fixed priority order ads, analytics, social, cdn, malicious. -/
theorem blocklist_suffix_match_semantics (d : List Char) :
    ((is_domain_blocked d).1 = true ↔
      ∃ c ∈ categoryChecks, ∃ e r, (e, r) ∈ c.2 ∧
        (pyLower d = e ∨ ∃ pre, pyLower d = pre ++ '.' :: e)) ∧
    (∀ lbl, specFirstCategory (pyLower d) = some lbl →
      lbl.data <+: (is_domain_blocked d).2.data) := by
  constructor
  · rw [is_domain_blocked, scanCategories_fst_iff]
    constructor
    · rintro ⟨c, hmem, hhit⟩
      exact ⟨c, hmem, (specHit_iff _ _).mp hhit⟩
    · rintro ⟨c, hmem, hhit⟩
      exact ⟨c, hmem, (specHit_iff _ _).mpr hhit⟩
  · intro lbl hfind
    rw [is_domain_blocked]
    exact scanCategories_label_prefix (pyLower d) categoryChecks lbl hfind

/-- Witness for C5 at `ads.doubleclick.net`: the first (and only)
matching category is the ad-network table, and the reason string is
labelled accordingly. -/
theorem blocklist_suffix_match_semantics_witness :
    specFirstCategory (pyLower "ads.doubleclick.net".data) = some "Ad Network: " ∧
    ("Ad Network: ".data <+: (is_domain_blocked "ads.doubleclick.net".data).2.data) ∧
    ((is_domain_blocked "ads.doubleclick.net".data).1 = true ↔
      ∃ c ∈ categoryChecks, ∃ e r, (e, r) ∈ c.2 ∧
        (pyLower "ads.doubleclick.net".data = e ∨
         ∃ pre, pyLower "ads.doubleclick.net".data = pre ++ '.' :: e)) :=
  ⟨by decide,
   (blocklist_suffix_match_semantics "ads.doubleclick.net".data).2
     "Ad Network: " (by decide),
   (blocklist_suffix_match_semantics "ads.doubleclick.net".data).1⟩

/-! ## Claim C4 — sliding-window rate limit -/

/-- Unfolding one `check_limit` call inside a run. -/
theorem runLimiterFrom_cons (b : List ℚ) (t : ℚ) (ts : List ℚ) :
    runLimiterFrom b (t :: ts) =
      (t, (check_limit b t).1) :: runLimiterFrom (check_limit b t).2 ts := by
  rcases h : check_limit b t with ⟨ok, b2⟩
  simp [runLimiterFrom, h]

/-- The bucket left behind by a sequence of `check_limit` calls. -/
def bucketAfter (b : List ℚ) : List ℚ → List ℚ
  | [] => b
  | t :: ts => bucketAfter (check_limit b t).2 ts

/-- A run over concatenated call sequences splits at the bucket state. -/
theorem runLimiterFrom_append (b : List ℚ) (xs ys : List ℚ) :
    runLimiterFrom b (xs ++ ys) =
      runLimiterFrom b xs ++ runLimiterFrom (bucketAfter b xs) ys := by
  induction xs generalizing b with
  | nil => simp [runLimiterFrom, bucketAfter]
  | cons x xs ih => simp [runLimiterFrom_cons, bucketAfter, ih]

/-- Counting window permits, one outcome at a time. -/
theorem windowPermits_cons (t : ℚ) (ok : Bool) (rs : List (ℚ × Bool)) (w : ℚ) :
    windowPermits ((t, ok) :: rs) w =
      (if ok = true ∧ w < t ∧ t ≤ w + 60 then 1 else 0) + windowPermits rs w := by
  simp only [windowPermits, List.filter_cons]
  by_cases h : ok = true ∧ w < t ∧ t ≤ w + 60
  · simp [h, Nat.add_comm]
  · simp [h]

/-- Calls entirely beyond the window contribute no window permits. -/
theorem windowPermits_zero_of_late (w : ℚ) (ts : List ℚ) :
    ∀ b : List ℚ, (∀ x ∈ ts, w + 60 < x) →
      windowPermits (runLimiterFrom b ts) w = 0 := by
  induction ts with
  | nil => intro b _; rfl
  | cons t ts2 ih =>
    intro b hlate
    rw [runLimiterFrom_cons, windowPermits_cons, if_neg, Nat.zero_add]
    · exact ih _ (fun x hx => hlate x (List.mem_cons_of_mem t hx))
    · rintro ⟨-, -, hle⟩
      exact absurd (hlate t (List.mem_cons_self t ts2)) (not_lt.mpr hle)

/-- Pruning at a time inside the window keeps every bucket entry that is
inside the window. -/
theorem filter_window_of_prune (b : List ℚ) (t w : ℚ) (ht : t ≤ w + 60) :
    ((b.filter (fun x => decide (t - x < 60))).filter
        (fun x => decide (w < x))).length =
      (b.filter (fun x => decide (w < x))).length := by
  rw [List.filter_filter]
  refine congrArg List.length (List.filter_congr ?_)
  intro x hx
  by_cases hw : w < x
  · have h60 : t - x < 60 := by linarith
    simp [hw, h60]
  · simp [hw]

/-- The central invariant: starting from any bucket holding at most 100
window entries, the window permits of the rest of a time-sorted run plus
the bucket's window entries stay within 100. -/
theorem windowPermits_invariant (w : ℚ) (ts : List ℚ) :
    ∀ b : List ℚ, ts.Pairwise (· ≤ ·) →
      (b.filter (fun x => decide (w < x))).length ≤ 100 →
      windowPermits (runLimiterFrom b ts) w +
        (b.filter (fun x => decide (w < x))).length ≤ 100 := by
  induction ts with
  | nil =>
    intro b _ hb
    simpa [runLimiterFrom, windowPermits] using hb
  | cons t ts2 ih =>
    intro b hsorted hb
    have hhead : ∀ x ∈ ts2, t ≤ x :=
      fun x hx => List.rel_of_pairwise_cons hsorted hx
    have htl : ts2.Pairwise (· ≤ ·) := hsorted.of_cons
    by_cases hwin : w + 60 < t
    · have hz : windowPermits (runLimiterFrom b (t :: ts2)) w = 0 := by
        refine windowPermits_zero_of_late w (t :: ts2) b ?_
        intro x hx
        rcases List.mem_cons.mp hx with rfl | hx2
        · exact hwin
        · exact lt_of_lt_of_le hwin (hhead x hx2)
      omega
    · push_neg at hwin
      rw [runLimiterFrom_cons, windowPermits_cons]
      have hWp := filter_window_of_prune b t w hwin
      by_cases hden : 100 ≤ (b.filter (fun x => decide (t - x < 60))).length
      · have hck : check_limit b t = (false, b.filter (fun x => decide (t - x < 60))) := by
          simp only [check_limit]
          rw [if_pos hden]
        rw [hck]
        simp only [Bool.false_eq_true, false_and, if_false, Nat.zero_add]
        have := ih (b.filter (fun x => decide (t - x < 60))) htl (by omega)
        omega
      · push_neg at hden
        have hck : check_limit b t =
            (true, b.filter (fun x => decide (t - x < 60)) ++ [t]) := by
          simp only [check_limit]
          rw [if_neg (by omega)]
        have hck1 : (check_limit b t).1 = true := by rw [hck]
        have hck2 : (check_limit b t).2 =
            b.filter (fun x => decide (t - x < 60)) ++ [t] := by rw [hck]
        rw [hck1, hck2]
        have hWapp :
            (((b.filter (fun x => decide (t - x < 60))) ++ [t]).filter
                (fun x => decide (w < x))).length =
              (b.filter (fun x => decide (w < x))).length +
                (if w < t then 1 else 0) := by
          rw [List.filter_append, List.length_append, hWp]
          by_cases hwt : w < t
          · simp [hwt]
          · simp [hwt]
        have hWle :
            ((b.filter (fun x => decide (t - x < 60))).filter
                (fun x => decide (w < x))).length ≤
              (b.filter (fun x => decide (t - x < 60))).length :=
          List.length_filter_le _ _
        have hb2 :
            (((b.filter (fun x => decide (t - x < 60))) ++ [t]).filter
                (fun x => decide (w < x))).length ≤ 100 := by
          rw [hWapp]
          by_cases hwt : w < t
          · simp only [hwt, if_pos]
            omega
          · simp [hwt]
            omega
        have hrec := ih ((b.filter (fun x => decide (t - x < 60))) ++ [t]) htl hb2
        rw [hWapp] at hrec
        by_cases hwt : w < t
        · rw [if_pos ⟨rfl, hwt, hwin⟩]
          rw [if_pos hwt] at hrec
          omega
        · rw [if_neg (by rintro ⟨-, hc, -⟩; exact hwt hc)]
          rw [if_neg hwt] at hrec
          omega

/-- Pruning a same-time bucket keeps everything. -/
theorem prune_replicate_self (k : Nat) (t : ℚ) :
    (List.replicate k t).filter (fun x => decide (t - x < 60)) =
      List.replicate k t := by
  refine List.filter_eq_self.mpr (fun a ha => ?_)
  rw [List.eq_of_mem_replicate ha]
  norm_num

/-- While the bucket holds fewer than 100 entries, same-time calls are
permitted and just grow the bucket. -/
theorem run_replicate_permits (t : ℚ) :
    ∀ (n k : Nat), k + n ≤ 100 →
      runLimiterFrom (List.replicate k t) (List.replicate n t) =
        List.replicate n (t, true) ∧
      bucketAfter (List.replicate k t) (List.replicate n t) =
        List.replicate (k + n) t := by
  intro n
  induction n with
  | zero => intro k _; exact ⟨rfl, by simp [bucketAfter]⟩
  | succ n ih =>
    intro k hk
    have hck : check_limit (List.replicate k t) t =
        (true, List.replicate (k + 1) t) := by
      simp only [check_limit, prune_replicate_self, List.length_replicate]
      rw [if_neg (by omega), List.replicate_succ' k t]
    have hrec := ih (k + 1) (by omega)
    constructor
    · rw [List.replicate_succ, runLimiterFrom_cons, hck]
      simp only [List.replicate_succ (α := ℚ × Bool)]
      exact congrArg _ hrec.1
    · rw [List.replicate_succ, bucketAfter, hck]
      rw [hrec.2]
      congr 1
      omega

/-- With a full same-time bucket, further same-time calls are denied. -/
theorem run_replicate_denied (t : ℚ) (m : Nat) :
    runLimiterFrom (List.replicate 100 t) (List.replicate m t) =
      List.replicate m (t, false) := by
  induction m with
  | zero => rfl
  | succ m ih =>
    have hck : check_limit (List.replicate 100 t) t =
        (false, List.replicate 100 t) := by
      simp only [check_limit, prune_replicate_self, List.length_replicate]
      rw [if_pos (by omega)]
    rw [show List.replicate (m + 1) t = t :: List.replicate m t from
        List.replicate_succ t m,
      runLimiterFrom_cons, hck,
      show List.replicate (m + 1) ((t, false) : ℚ × Bool) =
          (t, false) :: List.replicate m (t, false) from
        List.replicate_succ (t, false) m]
    exact congrArg _ ih

/-- Claim C4: for one source IP processed by `RateLimiter.check_limit`, (1) in
every sliding window `(w, w + 60]` the number of permitted requests
never exceeds 100, for every time-sorted call sequence; (2) of 101
requests inside one minute (here: simultaneous) the first 100 are
permitted — in particular the 100th — and the 101st is denied; and
(3) after 60 quiet seconds a request is permitted again even from a full
bucket. -/
theorem rate_limit_sliding_window :
    (∀ (ts : List ℚ), ts.Pairwise (· ≤ ·) → ∀ w : ℚ,
      windowPermits (runLimiter ts) w ≤ 100) ∧
    (∀ t : ℚ, runLimiter (List.replicate 101 t) =
      List.replicate 100 (t, true) ++ [(t, false)]) ∧
    (∀ t : ℚ, runLimiterFrom (List.replicate 100 t) [t + 60] =
      [(t + 60, true)]) := by
  refine ⟨fun ts hsorted w => ?_, fun t => ?_, fun t => ?_⟩
  · have := windowPermits_invariant w ts [] hsorted (by simp)
    simpa [runLimiter] using this
  · have hsplit : List.replicate 101 t =
        List.replicate 100 t ++ List.replicate 1 t := by
      rw [← List.replicate_add]
    rw [runLimiter, hsplit, runLimiterFrom_append]
    have h100 := run_replicate_permits t 100 0 (by omega)
    have hb : bucketAfter ([] : List ℚ) (List.replicate 100 t) =
        List.replicate 100 t := by
      have := h100.2
      simpa using this
    have hr : runLimiterFrom ([] : List ℚ) (List.replicate 100 t) =
        List.replicate 100 (t, true) := by
      have := h100.1
      simpa using this
    rw [hr, hb, run_replicate_denied t 1]
    rfl
  · have hck : check_limit (List.replicate 100 t) (t + 60) =
        (true, [t + 60]) := by
      have hprune : (List.replicate 100 t).filter
          (fun x => decide (t + 60 - x < 60)) = [] := by
        refine List.filter_eq_nil_iff.mpr (fun a ha => ?_)
        rw [List.eq_of_mem_replicate ha]
        norm_num
      simp only [check_limit, hprune, List.length_nil]
      rw [if_neg (by omega)]
      rfl
    rw [runLimiterFrom_cons, hck]
    rfl

/-- Witness for C4 at the sorted call sequence `[0, 30, 120]` and window
start `0`. -/
theorem rate_limit_sliding_window_witness :
    windowPermits (runLimiter [0, 30, 120]) 0 ≤ 100 :=
  rate_limit_sliding_window.1 [0, 30, 120]
    (by norm_num [List.pairwise_cons]) 0

end AnonyNet
